import Mathlib

/-!
Shallow embedding of the session-reconciliation logic of the hr_assistant
frontend (src/frontend/src/components/Chat.jsx, ChatWindow.jsx and the
alternative versions in src/unnamed/part_001, part_002).

JavaScript strings are modelled as `List Char`.  JavaScript truthiness of a
string field is `≠ []`; an absent (`undefined`) string field is modelled as
`[]`, which is exactly what every truthiness test in the source observes.
Timestamps are compared through `new Date(...)` in the source; we model a
timestamp by its parsed numeric value (`Int`).  `Date.now()` is passed in as
an explicit parameter (`now`), one per handler invocation, matching the
millisecond granularity of the source.
-/

namespace HrAssistant

abbrev Str := List Char

/-- The literal in-flight marker stripped from contents:
`content.replace('(sending...)', '')` in `cleanMessages` (Chat.jsx line 23). -/
def marker : Str := "(sending...)".toList

/-- The `temp-` id marker stripped by `cleanMessages` (Chat.jsx line 22). -/
def tempMark : Str := "temp-".toList

/-- Fixed text of the synthesized error assistant message
(ChatWindow versions, catch branch of `sendMessage`). -/
def errText : Str := "⚠️ Sorry, I encountered an error. Please try again.".toList

/-- `s.startsWith(pat)` on character lists. -/
def strStartsWith : Str → Str → Bool
  | _, [] => true
  | [], _ :: _ => false
  | c :: s, p :: ps => c == p && strStartsWith s ps

/-- JavaScript `s.replace(pat, '')` with a plain-string pattern: removes the
first occurrence of `pat` from `s` (identity when there is none). -/
def removeFirst (pat : Str) : Str → Str
  | [] => []
  | c :: rest =>
    if strStartsWith (c :: rest) pat then (c :: rest).drop pat.length
    else c :: removeFirst pat rest

/-- `s.includes(pat)`: does `pat` occur inside `s`? -/
def hasOcc (pat : Str) : Str → Bool
  | [] => pat.isEmpty
  | c :: rest => strStartsWith (c :: rest) pat || hasOcc pat rest

def wsp (c : Char) : Bool := c.isWhitespace

def trimLeft (s : Str) : Str := s.dropWhile wsp

def trimRight (s : Str) : Str := (s.reverse.dropWhile wsp).reverse

/-- JavaScript `s.trim()`. -/
def trim (s : Str) : Str := trimRight (trimLeft s)

/-- Canonical message record as the React components use it.
`id = []` models a missing id, `role = []` a missing role, and `content = []`
a missing or empty content — all observed only through truthiness in the
source.  `ts` is the parsed timestamp value.  `isTemp` models the `isTemp`
flag (`undefined` is `false`). -/
structure Msg where
  id : Str
  role : Str
  content : Str
  ts : Int
  isTemp : Bool
deriving DecidableEq, Repr

/-- `msg.id?.replace(...)` with the anchored regex that strips one leading
`temp-` (Chat.jsx line 22). -/
def stripTemp (i : Str) : Str :=
  if strStartsWith i tempMark then i.drop tempMark.length else i

/-- The id computation of `cleanMessages` (Chat.jsx line 22): strip one
leading `temp-`, and when the result is falsy fall back to the generated
id `Date.now()-role`. -/
def canonId (now role i : Str) : Str :=
  let j := stripTemp i
  if j = [] then now ++ ('-' :: role) else j

/-- The filter of `cleanMessages` (Chat.jsx line 18):
`msg && msg.content && msg.role`. -/
def keepMsg (m : Msg) : Bool := !m.content.isEmpty && !m.role.isEmpty

/-- The map of `cleanMessages` (Chat.jsx lines 19-24). -/
def canonMsg (now : Str) (m : Msg) : Msg :=
  { m with
    isTemp := false
    id := canonId now m.role m.id
    content := trim (removeFirst marker m.content) }

/-- `cleanMessages` (Chat.jsx lines 16-25): filter invalid records, then
canonicalize each survivor.  Note: no deduplication, no sorting. -/
def cleanMessages (now : Str) (msgs : List Msg) : List Msg :=
  (msgs.filter keepMsg).map (canonMsg now)

/-- A chat session as stored in `chatHistory` / `currentChat`.
`_id = []` models a missing id; `updated_at = none` a missing field
(`b.updated_at || b.created_at` falls back on falsiness). -/
structure Session where
  _id : Str
  title : Str
  messages : List Msg
  created_at : Int
  updated_at : Option Int
deriving DecidableEq, Repr

/-- The state of the `Chat` component: the four pieces of React state the
reconciliation logic mutates. -/
structure ChatState where
  chatHistory : List Session
  currentChat : Option Session
  messages : List Msg
  isNewChat : Bool
deriving DecidableEq, Repr

/-- Sort key of `loadChatHistory`: `new Date(b.updated_at || b.created_at)`. -/
def sessKey (c : Session) : Int := c.updated_at.getD c.created_at

/-- Insert a session into a list sorted by `sessKey` descending. -/
def insertSess (c : Session) : List Session → List Session
  | [] => [c]
  | d :: rest =>
    if sessKey d ≤ sessKey c then c :: d :: rest else d :: insertSess c rest

/-- The `history.sort((a, b) => new Date(...) - new Date(...))` of
`loadChatHistory`: sessions ordered by `updated_at || created_at`
descending. -/
def sortSessions : List Session → List Session
  | [] => []
  | c :: rest => insertSess c (sortSessions rest)

/-- `sortedHistory.map(chat => ({...chat, messages: cleanMessages(...)}))`. -/
def cleanedHistory (now : Str) (data : List Session) : List Session :=
  (sortSessions data).map fun c => { c with messages := cleanMessages now c.messages }

/-- The `useEffect` on `[currentChat]` (Chat.jsx lines 64-71): it fires after
every handler that replaces `currentChat` by a fresh object, re-deriving the
`messages` view state from the stored session. -/
def currentChatEffect (now : Str) (st : ChatState) : ChatState :=
  match st.currentChat with
  | some cur => { st with messages := cleanMessages now cur.messages, isNewChat := false }
  | none => { st with messages := [] }

/-- `loadChatHistory` (Chat.jsx lines 33-61), success path, applied to the
fetched raw session list `data`.  The current chat is looked up in the
cleaned list; when found it is replaced (and the `[currentChat]` effect
fires), when absent `currentChat` is left as it was. -/
def loadChatHistory (st : ChatState) (data : List Session) (now : Str) : ChatState :=
  let cleaned := cleanedHistory now data
  let st1 := { st with chatHistory := cleaned }
  match st.currentChat with
  | none => st1
  | some cur =>
    match cleaned.find? (fun c => decide (c._id = cur._id)) with
    | some updated => currentChatEffect now { st1 with currentChat := some updated }
    | none => st1

/-- `loadChatHistory` including its catch branch: `res = none` models a
failed `getHistory` call, which only empties `chatHistory`. -/
def loadChatHistoryRes (st : ChatState) (res : Option (List Session)) (now : Str) : ChatState :=
  match res with
  | some data => loadChatHistory st data now
  | none => { st with chatHistory := [] }

/-- The per-batch content cleaning of `handleNewMessage` (Chat.jsx lines
83-86): strip the in-flight marker, trim, and drop now-empty contents. -/
def cleanBatch (msgs : List Msg) : List Msg :=
  (msgs.map fun m => { m with content := trim (removeFirst marker m.content) }).filter
    fun m => !m.content.isEmpty

/-- Title of a freshly created chat (Chat.jsx line 121). -/
def mkTitle (c : Str) : Str :=
  c.take 30 ++ (if 30 < c.length then ('.' :: '.' :: '.' :: []) else [])

/-- Control-flow core of `handleNewMessage` (Chat.jsx lines 75-131):
`none` models an early `return` (state not touched), `some st'` the state
written by the handler before the `[currentChat]` effect re-fires.
`chatId` is the second argument, `newChatId` the `newMessage.chat_id` field
(both `[]` when absent), `genChatId` the generated `chat-Date.now()` id. -/
def handleNewMessageAux (st : ChatState) (newMsgs : List Msg)
    (chatId newChatId : Str) (ts : Int) (genChatId : Str) : Option ChatState :=
  match newMsgs with
  | [] => none
  | _ :: _ =>
    match cleanBatch newMsgs with
    | [] => none
    | first :: rest =>
      match st.currentChat, st.isNewChat with
      | some cur, false =>
        -- `existingMessageIds` / `uniqueNew` / `updatedMessages` / `updatedChat`
        -- of the source, inlined so that the early return on an empty
        -- `uniqueNew` is a plain match
        match (first :: rest).filter fun m =>
            decide (m.id ∉ st.messages.map (·.id)) with
        | [] => none
        | u :: us =>
          some { st with
            currentChat := some
              { cur with messages := st.messages ++ u :: us, updated_at := some ts }
            messages := st.messages ++ u :: us
            chatHistory := st.chatHistory.map fun c =>
              if c._id = cur._id then
                { cur with messages := st.messages ++ u :: us, updated_at := some ts }
              else c }
      | _, _ =>
        let newId := if chatId ≠ [] then chatId
          else if newChatId ≠ [] then newChatId else genChatId
        let newChat : Session :=
          { _id := newId
            title := mkTitle first.content
            messages := first :: rest
            created_at := ts
            updated_at := some ts }
        some { chatHistory := newChat :: st.chatHistory
               currentChat := some newChat
               messages := first :: rest
               isNewChat := false }

/-- `handleNewMessage` as the handler itself leaves the state. -/
def handleNewMessage (st : ChatState) (newMsgs : List Msg)
    (chatId newChatId : Str) (ts : Int) (genChatId : Str) : ChatState :=
  (handleNewMessageAux st newMsgs chatId newChatId ts genChatId).getD st

/-- `handleNewMessage` followed by the `[currentChat]` effect, which fires
exactly when the handler replaced `currentChat` by a fresh object.
`now2` is the `Date.now()` of the effect's `cleanMessages` call. -/
def handleNewMessageE (now2 : Str) (st : ChatState) (newMsgs : List Msg)
    (chatId newChatId : Str) (ts : Int) (genChatId : Str) : ChatState :=
  match handleNewMessageAux st newMsgs chatId newChatId ts genChatId with
  | none => st
  | some st' => currentChatEffect now2 st'

/-- `handleDeleteChat` (Chat.jsx lines 150-163).  `remoteOk` is whether
`chatAPI.deleteChat` resolved; the remote call is only issued when
`target._id` is truthy, so a failure is only possible then.  `res` is the
reload's fetched data (`none` = reload fetch failed).  The active-chat check
uses the closure's `currentChat`, i.e. the pre-reload value. -/
def handleDeleteChat (st : ChatState) (target : Session) (remoteOk : Bool)
    (res : Option (List Session)) (now : Str) : ChatState :=
  if target._id ≠ [] ∧ remoteOk = false then
    -- catch branch: only the reload is re-run
    loadChatHistoryRes st res now
  else
    let st1 := loadChatHistoryRes st res now
    if (match st.currentChat with
        | some c => decide (c._id = target._id)
        | none => false) then
      { st1 with currentChat := none, isNewChat := true, messages := [] }
    else st1

/-- Observable events of `handleDeleteChat`, in program order. -/
inductive Ev where
  | remoteDelete
  | reload
  | clearActive
deriving DecidableEq, Repr, BEq

/-- Event trace of `handleDeleteChat`: the remote delete (when an id is
present) always precedes the reload, and the optimistic clear of the active
chat, when it happens at all, comes last. -/
def deleteEvents (hasId remoteOk wasActive : Bool) : List Ev :=
  if hasId ∧ remoteOk = false then [Ev.remoteDelete, Ev.reload]
  else
    (if hasId then [Ev.remoteDelete] else []) ++ [Ev.reload] ++
      (if wasActive then [Ev.clearActive] else [])

/-- `handleClearAll` (Chat.jsx lines 166-177): on success everything is
reset; in the catch branch only `chatHistory` is emptied. -/
def handleClearAll (st : ChatState) (remoteOk : Bool) : ChatState :=
  if remoteOk then
    { chatHistory := [], currentChat := none, messages := [], isNewChat := true }
  else { st with chatHistory := [] }

/-- Is a message temporary (either by flag or by id marker)? -/
def isTempish (m : Msg) : Bool := m.isTemp || strStartsWith m.id tempMark

/-- The filter of `displayMessages` (src/unnamed/part_001 lines 104-109):
`!msg.isTemp && !msg.id?.startsWith('temp-') && msg.content &&
!msg.content.includes('(sending...)')`. -/
def dispKeep (m : Msg) : Bool :=
  !m.isTemp && !strStartsWith m.id tempMark &&
    !m.content.isEmpty && !hasOcc marker m.content

/-- `displayMessages` (src/unnamed/part_001 lines 103-112): the visible list
is the stored `messages` minus anything temp-flagged, temp-id-marked, empty
or still carrying the in-flight marker, with the at-most-one pending
temporary message appended. -/
def displayMessages (msgs : List Msg) (temp : Option Msg) : List Msg :=
  match temp with
  | some t => msgs.filter dispKeep ++ [t]
  | none => msgs.filter dispKeep

/-- Combined state of the `ChatWindow` (src/unnamed/part_001) and its parent. -/
structure UIState where
  chat : ChatState
  tempUserMessage : Option Msg
deriving DecidableEq, Repr

/-- The failure path of `sendMessage` (src/unnamed/part_001 lines 22-101,
catch branch): guard on blank input, build the temporary user message,
the remote call rejects, the temporary message is cleared, the fixed-text
error assistant message is synthesized, the user message is finalized under
the fresh id `uid`, and both are handed to `handleNewMessage` (invoked with
one argument, so its `chatId` parameter is absent), after which the
`[currentChat]` effect re-derives the view.  `tempId`/`uid`/`eid` are the
generated ids, `tsT`/`tsE` the two `toISOString()` timestamps, `tsM` the
`Date.now()` inside `handleNewMessage`, `fallbackChatId` the
`Date.now()` fallback for a missing current chat id. -/
def sendMessageFail (st : UIState) (input : Str) (tempId uid eid : Str)
    (tsT tsE tsM : Int) (genChatId fallbackChatId now2 : Str) : UIState :=
  if trim input = [] then st
  else
    let messageContent := trim input
    let userMessage : Msg :=
      { id := tempId, role := "user".toList, content := messageContent
        ts := tsT, isTemp := true }
    let errorMessage : Msg :=
      { id := eid, role := "assistant".toList, content := errText
        ts := tsE, isTemp := false }
    let persistentUserMessage : Msg := { userMessage with id := uid, isTemp := false }
    let cid := match st.chat.currentChat with
      | some c => if c._id = [] then fallbackChatId else c._id
      | none => fallbackChatId
    { chat := handleNewMessageE now2 st.chat [persistentUserMessage, errorMessage]
        [] cid tsM genChatId
      tempUserMessage := none }

/-- A message in steady state: finalized, validly shaped, already cleaned.
Every message a handler stores after normalization satisfies this; it is the
precondition under which the handlers behave additively. -/
def tidy (m : Msg) : Prop :=
  m.isTemp = false ∧ strStartsWith m.id tempMark = false ∧ m.id ≠ [] ∧
    m.content ≠ [] ∧ hasOcc marker m.content = false ∧
    trim m.content = m.content ∧ m.role ≠ []

instance (m : Msg) : Decidable (tidy m) := by unfold tidy; infer_instance

/-- The finalized (non-temporary) user message built by the catch branch of
`sendMessage` (src/unnamed/part_001): fresh id `uid`, the trimmed input as
content, the original send timestamp. -/
def finalUserMsg (uid input : Str) (tsT : Int) : Msg :=
  ⟨uid, "user".toList, trim input, tsT, false⟩

/-- The synthesized fixed-text error assistant message of the catch branch. -/
def errMsg (eid : Str) (tsE : Int) : Msg :=
  ⟨eid, "assistant".toList, errText, tsE, false⟩

/-- What scenario D promises about the state after a failed send: the
temporary message is gone and the visible list is the previous stored list
plus the finalized user message plus the one fixed-text error message, with
no temporary message visible. -/
def sendFailSpec (old stNew : UIState) (input : Str) (uid eid : Str)
    (tsT tsE : Int) : Prop :=
  stNew.tempUserMessage = none ∧
    displayMessages stNew.chat.messages stNew.tempUserMessage =
      old.chat.messages ++ [finalUserMsg uid input tsT, errMsg eid tsE] ∧
    (displayMessages stNew.chat.messages stNew.tempUserMessage).countP isTempish = 0

/-! ### Concrete sample data used by counterexamples and witnesses -/

/-- A plain, already-clean message with id `a`. -/
def mA : Msg := ⟨"a".toList, "user".toList, "x".toList, 1, false⟩

/-- A message whose id `temp-a` collides with `mA` once cleaned. -/
def mTa : Msg := ⟨"temp-a".toList, "user".toList, "y".toList, 2, false⟩

/-- A message with a later timestamp than `mB3`. -/
def mB5 : Msg := ⟨"b5".toList, "user".toList, "x".toList, 5, false⟩

/-- A message with an earlier timestamp than `mB5`. -/
def mB3 : Msg := ⟨"b3".toList, "user".toList, "y".toList, 3, false⟩

/-- A session with id `s` holding the colliding pair. -/
def sDup : Session := ⟨"s".toList, [], [mA, mTa], 0, some 1⟩

/-- A session with id `s` holding out-of-timestamp-order messages. -/
def sUnsorted : Session := ⟨"s".toList, [], [mB5, mB3], 0, some 1⟩

/-- A plain session with id `x` and no messages. -/
def sX : Session := ⟨"x".toList, [], [], 0, none⟩

/-- The empty initial component state. -/
def stEmpty : ChatState := ⟨[], none, [], true⟩

/-- A state in which session `sX` is selected. -/
def stOnX : ChatState := ⟨[sX], some sX, [], false⟩

/-! ## Helper lemmas about the string model -/

theorem dropWhile_head_false {α : Type} {p : α → Bool} :
    ∀ {l : List α} {a : α} {t : List α}, l.dropWhile p = a :: t → p a = false := by
  intro l
  induction l with
  | nil => intro a t h; cases h
  | cons c rest ih =>
    intro a t h
    rw [List.dropWhile_cons] at h
    by_cases hc : p c
    · rw [if_pos hc] at h; exact ih h
    · rw [if_neg hc] at h
      cases h
      exact Bool.of_not_eq_true hc

theorem dropWhile_idem {α : Type} (p : α → Bool) (l : List α) :
    (l.dropWhile p).dropWhile p = l.dropWhile p := by
  cases h : l.dropWhile p with
  | nil => simp
  | cons a t =>
    have ha := dropWhile_head_false h
    simp [List.dropWhile_cons, ha]

theorem trimLeft_idem (s : Str) : trimLeft (trimLeft s) = trimLeft s :=
  dropWhile_idem wsp s

theorem trimRight_idem (s : Str) : trimRight (trimRight s) = trimRight s := by
  unfold trimRight
  rw [List.reverse_reverse, dropWhile_idem]

theorem trimLeft_trimRight_trimLeft (s : Str) :
    trimLeft (trimRight (trimLeft s)) = trimRight (trimLeft s) := by
  cases hzr : trimRight (trimLeft s) with
  | nil => simp [trimLeft]
  | cons a t =>
    have hpre : trimRight (trimLeft s) <+: trimLeft s := by
      apply List.reverse_suffix.mp
      unfold trimRight
      rw [List.reverse_reverse]
      exact List.dropWhile_suffix wsp
    rw [hzr] at hpre
    obtain ⟨r, hr⟩ := hpre
    have hhead : trimLeft s = a :: (t ++ r) := by
      rw [← hr]; rfl
    have ha : wsp a = false := dropWhile_head_false hhead
    simp [trimLeft, List.dropWhile_cons, ha]

theorem trim_idem (s : Str) : trim (trim s) = trim s := by
  unfold trim
  rw [trimLeft_trimRight_trimLeft]
  exact trimRight_idem _

theorem removeFirst_no_occ {pat s : Str} (h : hasOcc pat s = false) :
    removeFirst pat s = s := by
  induction s with
  | nil => rfl
  | cons c rest ih =>
    unfold hasOcc at h
    rw [Bool.or_eq_false_iff] at h
    unfold removeFirst
    rw [h.1, ih h.2]
    simp

theorem map_mem_id {α : Type} {l : List α} {f : α → α} (h : ∀ x ∈ l, f x = x) :
    l.map f = l := by
  induction l with
  | nil => rfl
  | cons a t ih =>
    simp only [List.map_cons, h a (by simp)]
    rw [ih fun x hx => h x (by simp [hx])]

/-! ## Helper lemmas about `cleanMessages` -/

theorem mem_cleanMessages {now : Str} {L : List Msg} {m : Msg} :
    m ∈ cleanMessages now L ↔
      ∃ m₀, m₀ ∈ L ∧ m₀.content ≠ [] ∧ m₀.role ≠ [] ∧ m = canonMsg now m₀ := by
  unfold cleanMessages
  constructor
  · intro hm
    obtain ⟨m₀, hm₀, hEq⟩ := List.mem_map.mp hm
    obtain ⟨hmem, hkeep⟩ := List.mem_filter.mp hm₀
    unfold keepMsg at hkeep
    rw [Bool.and_eq_true, Bool.not_eq_true', Bool.not_eq_true',
      List.isEmpty_eq_false, List.isEmpty_eq_false] at hkeep
    exact ⟨m₀, hmem, hkeep.1, hkeep.2, hEq.symm⟩
  · intro ⟨m₀, hmem, hc, hr, hEq⟩
    apply List.mem_map.mpr
    refine ⟨m₀, List.mem_filter.mpr ⟨hmem, ?_⟩, hEq.symm⟩
    unfold keepMsg
    rw [Bool.and_eq_true, Bool.not_eq_true', Bool.not_eq_true',
      List.isEmpty_eq_false, List.isEmpty_eq_false]
    exact ⟨hc, hr⟩

theorem canonId_ne_nil (now role i : Str) : canonId now role i ≠ [] := by
  unfold canonId
  by_cases h : stripTemp i = []
  · simp [h]
  · simp [h]

theorem canonMsg_fixed {now : Str} {m : Msg}
    (hc1 : hasOcc marker m.content = false)
    (hc2 : trim m.content = m.content)
    (hid1 : strStartsWith m.id tempMark = false)
    (hid2 : m.id ≠ [])
    (ht : m.isTemp = false) :
    canonMsg now m = m := by
  obtain ⟨i, r, c, ts, b⟩ := m
  simp only at hc1 hc2 hid1 hid2 ht
  unfold canonMsg canonId stripTemp
  simp [hid1, hid2, removeFirst_no_occ hc1, hc2, ht]

theorem cleanMessages_fixed {now : Str} {l : List Msg}
    (h : ∀ m ∈ l, keepMsg m = true ∧ canonMsg now m = m) :
    cleanMessages now l = l := by
  unfold cleanMessages
  rw [List.filter_eq_self.mpr fun a ha => (h a ha).1]
  exact map_mem_id fun a ha => (h a ha).2

theorem cleanMessages_append (now : Str) (l₁ l₂ : List Msg) :
    cleanMessages now (l₁ ++ l₂) = cleanMessages now l₁ ++ cleanMessages now l₂ := by
  unfold cleanMessages
  rw [List.filter_append, List.map_append]

/-! ## Helper lemmas about `tidy` messages -/

theorem tidy_keep {m : Msg} (h : tidy m) : keepMsg m = true := by
  obtain ⟨_, _, _, hc, _, _, hr⟩ := h
  unfold keepMsg
  rw [Bool.and_eq_true, Bool.not_eq_true', Bool.not_eq_true',
    List.isEmpty_eq_false, List.isEmpty_eq_false]
  exact ⟨hc, hr⟩

theorem tidy_canon {now : Str} {m : Msg} (h : tidy m) : canonMsg now m = m := by
  obtain ⟨ht, hp, hi, _, ho, htr, _⟩ := h
  exact canonMsg_fixed ho htr hp hi ht

theorem tidy_disp {m : Msg} (h : tidy m) : dispKeep m = true := by
  obtain ⟨ht, hp, _, hc, ho, _, _⟩ := h
  unfold dispKeep
  rw [Bool.and_eq_true, Bool.and_eq_true, Bool.and_eq_true,
    Bool.not_eq_true', Bool.not_eq_true', Bool.not_eq_true', Bool.not_eq_true',
    List.isEmpty_eq_false]
  exact ⟨⟨⟨ht, hp⟩, hc⟩, ho⟩

theorem tidy_not_tempish {m : Msg} (h : tidy m) : isTempish m = false := by
  obtain ⟨ht, hp, _, _, _, _, _⟩ := h
  unfold isTempish
  rw [ht, hp]
  rfl

theorem tidy_clean_fixed {now : Str} {l : List Msg} (h : ∀ m ∈ l, tidy m) :
    cleanMessages now l = l :=
  cleanMessages_fixed fun m hm => ⟨tidy_keep (h m hm), tidy_canon (h m hm)⟩

theorem tidy_filter_disp {l : List Msg} (h : ∀ m ∈ l, tidy m) :
    l.filter dispKeep = l :=
  List.filter_eq_self.mpr fun m hm => tidy_disp (h m hm)

/-! ## Claims -/

/-- C3 counterexample: `cleanMessages` keeps a record whose content is
whitespace-only (the claim says it is dropped), keeps two records whose ids
coincide (no deduplication), and leaves out-of-order timestamps untouched
(no sorting). -/
theorem c3_counterexample :
    cleanMessages "9".toList [⟨"a".toList, "user".toList, " ".toList, 0, false⟩] =
      [⟨"a".toList, "user".toList, [], 0, false⟩] ∧
    (cleanMessages "9".toList [mA, mTa]).map (·.id) = ["a".toList, "a".toList] ∧
    (cleanMessages "9".toList [mB5, mB3]).map (·.ts) = [5, 3] := by decide

/-- C3 (amended): `cleanMessages` keeps exactly the records with truthy
content and truthy role, canonicalizing each survivor (marker stripped,
trimmed, temp id prefix removed, temp flag cleared), and preserves the
input order; it does not deduplicate, does not sort, and does not drop
records whose content becomes empty only after cleaning. -/
theorem c3_clean_characterization (now : Str) (L : List Msg) :
    (∀ m, m ∈ cleanMessages now L ↔
      ∃ m₀, m₀ ∈ L ∧ m₀.content ≠ [] ∧ m₀.role ≠ [] ∧ m = canonMsg now m₀) ∧
    (cleanMessages now L).Sublist (L.map (canonMsg now)) := by
  refine ⟨fun m => mem_cleanMessages, ?_⟩
  unfold cleanMessages
  exact List.Sublist.map (canonMsg now) (List.filter_sublist L)

/-- C3 witness: the characterization at a concrete input. -/
theorem c3_witness :
    canonMsg "9".toList mA ∈ cleanMessages "9".toList [mA] :=
  ((c3_clean_characterization "9".toList [mA]).1 _).mpr
    ⟨mA, by decide, by decide, by decide, rfl⟩

/-- C8 counterexample: cleaning is not idempotent.  A record whose content
is exactly the in-flight marker survives the first pass (its raw content is
truthy) with empty content, and the second pass drops it. -/
theorem c8_counterexample :
    cleanMessages "9".toList (cleanMessages "9".toList
        [⟨"a".toList, "user".toList, "(sending...)".toList, 0, false⟩]) ≠
      cleanMessages "9".toList
        [⟨"a".toList, "user".toList, "(sending...)".toList, 0, false⟩] := by decide

/-- C8 (amended): cleaning is idempotent on every list whose first cleaning
leaves no empty content, no residual in-flight marker, and no residual
`temp-` id marker; in general a second pass can drop or rewrite records. -/
theorem c8_clean_idempotent_cond (now1 now2 : Str) (L : List Msg)
    (h : ∀ m ∈ cleanMessages now1 L,
      m.content ≠ [] ∧ hasOcc marker m.content = false ∧
        strStartsWith m.id tempMark = false) :
    cleanMessages now2 (cleanMessages now1 L) = cleanMessages now1 L := by
  apply cleanMessages_fixed
  intro m hm
  obtain ⟨hne, hocc, hpfx⟩ := h m hm
  obtain ⟨m₀, hm₀, hc0, hr0, hEq⟩ := mem_cleanMessages.mp hm
  constructor
  · unfold keepMsg
    rw [Bool.and_eq_true, Bool.not_eq_true', Bool.not_eq_true',
      List.isEmpty_eq_false, List.isEmpty_eq_false]
    refine ⟨hne, ?_⟩
    rw [hEq]
    exact hr0
  · refine canonMsg_fixed hocc ?_ hpfx ?_ ?_
    · rw [hEq]
      exact trim_idem _
    · rw [hEq]
      exact canonId_ne_nil _ _ _
    · rw [hEq]
      rfl

/-- C8 witness: idempotence at a concrete clean input. -/
theorem c8_witness :
    cleanMessages "8".toList (cleanMessages "9".toList [mA]) =
      cleanMessages "9".toList [mA] :=
  c8_clean_idempotent_cond "9".toList "8".toList [mA] (by decide)

/-- C2 counterexample: a history reload stores a session's messages in
server order without re-sorting, so out-of-timestamp-order raw data yields
a stored session violating `messages[i].ts ≤ messages[i+1].ts`. -/
theorem c2_counterexample :
    ¬ ∀ s ∈ (loadChatHistory stEmpty [sUnsorted] "9".toList).chatHistory,
        s.messages.Pairwise (fun a b => a.ts ≤ b.ts) := by decide

/-- C2 (amended): the operations preserve an existing ascending timestamp
order but do not establish it: `cleanMessages` is order-preserving (its
canonicalization never changes a timestamp), so sorted input stays sorted,
while unsorted server data is stored unsorted. -/
theorem c2_clean_preserves_order (now : Str) (L : List Msg)
    (h : L.Pairwise (fun a b => a.ts ≤ b.ts)) :
    (cleanMessages now L).Pairwise (fun a b => a.ts ≤ b.ts) := by
  unfold cleanMessages
  apply List.pairwise_map.mpr
  exact h.filter keepMsg

/-- C2 witness: order preservation on a concrete sorted list. -/
theorem c2_witness :
    (cleanMessages "9".toList [mB3, mB5]).Pairwise (fun a b => a.ts ≤ b.ts) :=
  c2_clean_preserves_order "9".toList [mB3, mB5] (by decide)

/-- C7 counterexample: when the remote clear fails, only the session list is
emptied; the active session pointer, the visible messages and the new-chat
flag are all left as they were, so the composing-new state is not entered. -/
theorem c7_counterexample :
    (handleClearAll ⟨[sX], some sX, [mA], false⟩ false).currentChat ≠ none ∧
    (handleClearAll ⟨[sX], some sX, [mA], false⟩ false).isNewChat = false ∧
    (handleClearAll ⟨[sX], some sX, [mA], false⟩ false).messages ≠ [] := by decide

/-- C7 (amended): `handleClearAll` empties the local session list regardless
of the remote result; only on remote success does it also clear the active
session, the visible messages, and enter the composing-new state — on
failure those three pieces of state are unchanged. -/
theorem c7_clear_all_behavior (st : ChatState) (remoteOk : Bool) :
    (handleClearAll st remoteOk).chatHistory = [] ∧
    (remoteOk = true →
      (handleClearAll st remoteOk).currentChat = none ∧
      (handleClearAll st remoteOk).messages = [] ∧
      (handleClearAll st remoteOk).isNewChat = true) ∧
    (remoteOk = false →
      (handleClearAll st remoteOk).currentChat = st.currentChat ∧
      (handleClearAll st remoteOk).messages = st.messages ∧
      (handleClearAll st remoteOk).isNewChat = st.isNewChat) := by
  cases remoteOk <;> simp [handleClearAll]

/-- C7 witness: the successful clear at a concrete state. -/
theorem c7_witness :
    (handleClearAll ⟨[sX], some sX, [mA], false⟩ true).chatHistory = [] ∧
    (handleClearAll ⟨[sX], some sX, [mA], false⟩ true).currentChat = none :=
  ⟨(c7_clear_all_behavior _ true).1,
    ((c7_clear_all_behavior _ true).2.1 rfl).1⟩

/-- C9: the visible list always carries at most one temporary message: the
base of `displayMessages` filters out everything temp-flagged or
temp-id-marked, and at most the single pending `tempUserMessage` is
appended. -/
theorem c9_at_most_one_temp (msgs : List Msg) (temp : Option Msg) :
    (displayMessages msgs temp).countP isTempish ≤ 1 := by
  have hbase : (msgs.filter dispKeep).countP isTempish = 0 := by
    apply List.countP_eq_zero.mpr
    intro m hm
    have hk := (List.mem_filter.mp hm).2
    unfold dispKeep at hk
    rw [Bool.and_eq_true, Bool.and_eq_true, Bool.and_eq_true,
      Bool.not_eq_true', Bool.not_eq_true'] at hk
    unfold isTempish
    rw [hk.1.1.1, hk.1.1.2]
    simp
  unfold displayMessages
  cases temp with
  | none => rw [hbase]; exact Nat.zero_le 1
  | some t =>
    rw [List.countP_append, hbase]
    have := @List.countP_le_length Msg isTempish [t]
    simpa using this

/-- C9 witness: the bound at a concrete visible list with a pending
temporary message. -/
theorem c9_witness :
    (displayMessages [mA] (some mTa)).countP isTempish ≤ 1 :=
  c9_at_most_one_temp [mA] (some mTa)

/-- C10: when every delivered message's content is empty after stripping the
in-flight marker and trimming (in particular when the batch is empty),
`handleNewMessage` is a complete no-op: the component state — session list,
active session, stored and visible messages, new-chat flag — is returned
unchanged, with or without the trailing `[currentChat]` effect. -/
theorem c10_empty_batch_noop (st : ChatState) (newMsgs : List Msg)
    (chatId newChatId : Str) (ts : Int) (genChatId now2 : Str)
    (h : ∀ m ∈ newMsgs, trim (removeFirst marker m.content) = []) :
    handleNewMessage st newMsgs chatId newChatId ts genChatId = st ∧
    handleNewMessageE now2 st newMsgs chatId newChatId ts genChatId = st := by
  have haux : handleNewMessageAux st newMsgs chatId newChatId ts genChatId = none := by
    unfold handleNewMessageAux
    cases newMsgs with
    | nil => rfl
    | cons a t =>
      have hcb : cleanBatch (a :: t) = [] := by
        unfold cleanBatch
        apply List.filter_eq_nil_iff.mpr
        intro m hm
        obtain ⟨m₀, hm₀, hEq⟩ := List.mem_map.mp hm
        rw [← hEq]
        simp [h m₀ hm₀]
      rw [hcb]
  constructor
  · unfold handleNewMessage
    rw [haux]
    rfl
  · unfold handleNewMessageE
    rw [haux]

/-- C10 witness: a batch whose only message trims to nothing leaves a
concrete state untouched. -/
theorem c10_witness :
    handleNewMessage stOnX
        [⟨"q".toList, "user".toList, " (sending...) ".toList, 7, false⟩]
        [] [] 7 "c9".toList = stOnX :=
  (c10_empty_batch_noop stOnX _ [] [] 7 "c9".toList "9".toList (by decide)).1

/-- In both success branches of `handleNewMessage`, the stored current chat
holds exactly the handler's new message list. -/
theorem handleNewMessageAux_curr {st : ChatState} {newMsgs : List Msg}
    {cid ncid : Str} {ts : Int} {gid : Str} {st' : ChatState}
    (h : handleNewMessageAux st newMsgs cid ncid ts gid = some st') :
    ∃ c, st'.currentChat = some c ∧ c.messages = st'.messages := by
  unfold handleNewMessageAux at h
  split at h
  · exact absurd h (by simp)
  · split at h
    · exact absurd h (by simp)
    · split at h
      · split at h
        · exact absurd h (by simp)
        · cases h
          exact ⟨_, rfl, rfl⟩
      · cases h
        exact ⟨_, rfl, rfl⟩


/-- In both success branches of `handleNewMessage`, the new message list has
no duplicate ids provided the previous visible list and the cleaned incoming
batch had none. -/
theorem handleNewMessageAux_nodup {st : ChatState} {newMsgs : List Msg}
    {cid ncid : Str} {ts : Int} {gid : Str} {st' : ChatState}
    (h1 : (st.messages.map (·.id)).Nodup)
    (h2 : ((cleanBatch newMsgs).map (·.id)).Nodup)
    (h : handleNewMessageAux st newMsgs cid ncid ts gid = some st') :
    (st'.messages.map (·.id)).Nodup := by
  unfold handleNewMessageAux at h
  split at h
  · exact absurd h (by simp)
  · split at h
    · exact absurd h (by simp)
    · rename_i first rest hcb
      split at h
      · rename_i cur hcur hnew
        split at h
        · exact absurd h (by simp)
        · rename_i u us huq
          cases h
          show ((st.messages ++ u :: us).map (·.id)).Nodup
          rw [← huq, List.map_append, List.nodup_append]
          refine ⟨h1, ?_, ?_⟩
          · apply List.Nodup.sublist
              (List.Sublist.map _ (List.filter_sublist (first :: rest)))
            rw [hcb] at h2
            exact h2
          · intro a ha hb
            obtain ⟨m, hm, hma⟩ := List.mem_map.mp hb
            have hmf := (List.mem_filter.mp hm).2
            rw [decide_eq_true_iff] at hmf
            rw [hma] at hmf
            exact hmf ha
      · cases h
        show (((first : Msg) :: rest).map (·.id)).Nodup
        rw [hcb] at h2
        exact h2

/-- C1 counterexample: a single history reload whose raw data holds ids `a`
and `temp-a` in one session stores that session with the duplicate id `a`
twice — reload does not deduplicate, and cleaning can even create
collisions. -/
theorem c1_counterexample :
    ¬ ∀ s ∈ (loadChatHistory stEmpty [sDup] "9".toList).chatHistory,
        (s.messages.map (·.id)).Nodup := by decide

/-- C1 (amended): the send-merge path never introduces a duplicate id — if
the visible list has pairwise-distinct ids and the cleaned incoming batch
has pairwise-distinct ids, the merged visible list and the merged stored
session keep pairwise-distinct ids — but a reload stores whatever ids the
cleaned server data carries, duplicates included. -/
theorem c1_merge_no_duplicate_ids (st : ChatState) (newMsgs : List Msg)
    (cid ncid : Str) (ts : Int) (gid : Str)
    (h0 : ∀ c, st.currentChat = some c → (c.messages.map (·.id)).Nodup)
    (h1 : (st.messages.map (·.id)).Nodup)
    (h2 : ((cleanBatch newMsgs).map (·.id)).Nodup) :
    ((handleNewMessage st newMsgs cid ncid ts gid).messages.map (·.id)).Nodup ∧
    ∀ c, (handleNewMessage st newMsgs cid ncid ts gid).currentChat = some c →
      (c.messages.map (·.id)).Nodup := by
  unfold handleNewMessage
  cases haux : handleNewMessageAux st newMsgs cid ncid ts gid with
  | none => exact ⟨h1, h0⟩
  | some st' =>
    have hnd := handleNewMessageAux_nodup h1 h2 haux
    obtain ⟨c, hc, hcm⟩ := handleNewMessageAux_curr haux
    refine ⟨hnd, ?_⟩
    intro c' hc'
    rw [Option.getD_some] at hc'
    rw [hc] at hc'
    cases hc'
    rw [hcm]
    exact hnd

/-- C1 witness: merging a fresh message into a clean state keeps the ids
duplicate-free. -/
theorem c1_witness :
    ((handleNewMessage ⟨[sX], some sX, [mA], false⟩ [mB3] [] [] 7 "c9".toList).messages.map
      (·.id)).Nodup :=
  (c1_merge_no_duplicate_ids ⟨[sX], some sX, [mA], false⟩ [mB3] [] [] 7 "c9".toList
    (by decide) (by decide) (by decide)).1

/-- C4 counterexample: with session `x` active and a reload whose new data
does not contain `x`, the active pointer is left pointing at the stale
session and the composing-new state is not entered. -/
theorem c4_counterexample :
    (loadChatHistory stOnX [] "9".toList).currentChat ≠ none ∧
    (loadChatHistory stOnX [] "9".toList).isNewChat = false := by decide

/-- C4 (amended): reloading while session `S` is active and still present in
the cleaned new data leaves the active pointer on a session with `S`'s id;
when no session with that id exists in the new data, `loadChatHistory`
leaves the active pointer unchanged (stale) instead of resetting it to the
composing-new state. -/
theorem c4_active_session_pointer (st : ChatState) (data : List Session)
    (now : Str) (cur : Session) (hcur : st.currentChat = some cur) :
    ((∃ c ∈ cleanedHistory now data, c._id = cur._id) →
      ∃ u, (loadChatHistory st data now).currentChat = some u ∧ u._id = cur._id) ∧
    ((∀ c ∈ cleanedHistory now data, c._id ≠ cur._id) →
      (loadChatHistory st data now).currentChat = some cur) := by
  unfold loadChatHistory
  rw [hcur]
  constructor
  · intro ⟨c, hc, hid⟩
    cases hf : (cleanedHistory now data).find? fun c => decide (c._id = cur._id) with
    | none =>
      exfalso
      have := List.find?_eq_none.mp hf c hc
      rw [decide_eq_true_iff] at this
      · exact this hid
    | some u =>
      refine ⟨u, ?_, ?_⟩
      · simp only [hf]
        rfl
      · have := List.find?_some hf
        rw [decide_eq_true_iff] at this
        exact this
  · intro hall
    have hf : (cleanedHistory now data).find? (fun c => decide (c._id = cur._id)) = none := by
      apply List.find?_eq_none.mpr
      intro x hx
      rw [decide_eq_true_iff]
      · exact hall x hx
    simp only [hf]

/-- C4 witness: reloading with the active session still in the data keeps
its id active. -/
theorem c4_witness :
    ∃ u, (loadChatHistory stOnX [sX] "9".toList).currentChat = some u ∧
      u._id = sX._id :=
  (c4_active_session_pointer stOnX [sX] "9".toList sX rfl).1
    ⟨sX, by decide, by decide⟩

/-- C6 counterexample: in the event trace of a delete of the active session
(with an id, remote succeeding), the optimistic clear of the active pointer
comes last, strictly after the remote delete — not before the remote delete
confirms as claimed.  Moreover, when the remote delete fails, the active
pointer is not cleared at all: with `x` active and the reload still
returning `x`, the state after a failed delete of `x` still has `x`
active. -/
theorem c6_counterexample :
    deleteEvents true true true = [Ev.remoteDelete, Ev.reload, Ev.clearActive] ∧
    ¬ (deleteEvents true true true).indexOf Ev.clearActive <
        (deleteEvents true true true).indexOf Ev.remoteDelete ∧
    (handleDeleteChat stOnX sX false (some [sX]) "9".toList).currentChat = some sX := by
  decide

/-- C6 (amended): `handleDeleteChat` re-triggers a reload whether the remote
delete succeeds or fails; when the deleted session was the active one and
the remote delete succeeded (or was skipped for lack of an id), the active
pointer is cleared and the composing-new state entered — but only after the
remote delete and the reload have resolved, and not at all when the remote
delete fails. -/
theorem c6_delete_behavior :
    (∀ hasId remoteOk wasActive : Bool,
      Ev.reload ∈ deleteEvents hasId remoteOk wasActive) ∧
    (∀ (st : ChatState) (target : Session) (res : Option (List Session))
      (now : Str) (cur : Session),
      st.currentChat = some cur → cur._id = target._id →
      (handleDeleteChat st target true res now).currentChat = none ∧
      (handleDeleteChat st target true res now).isNewChat = true ∧
      (handleDeleteChat st target true res now).messages = []) ∧
    (∀ (st : ChatState) (target : Session) (res : Option (List Session))
      (now : Str), target._id ≠ [] →
      handleDeleteChat st target false res now = loadChatHistoryRes st res now) := by
  refine ⟨?_, ?_, ?_⟩
  · intro hasId remoteOk wasActive
    cases hasId <;> cases remoteOk <;> cases wasActive <;> simp [deleteEvents]
  · intro st target res now cur hcur hid
    unfold handleDeleteChat
    rw [if_neg (by simp)]
    rw [hcur]
    rw [if_pos (by rw [decide_eq_true_iff]; exact hid)]
    exact ⟨rfl, rfl, rfl⟩
  · intro st target res now hid
    unfold handleDeleteChat
    rw [if_pos ⟨hid, rfl⟩]

/-- C6 witness: deleting the active session with the remote call succeeding
clears the active pointer. -/
theorem c6_witness :
    (handleDeleteChat stOnX sX true (some []) "9".toList).currentChat = none :=
  (c6_delete_behavior.2.1 stOnX sX (some []) "9".toList sX rfl rfl).1

/-! ## Supporting lemmas for the failed-send scenario -/

theorem tidy_content_facts {m : Msg} (h : tidy m) :
    m.content ≠ [] ∧ hasOcc marker m.content = false ∧ trim m.content = m.content :=
  ⟨h.2.2.2.1, h.2.2.2.2.1, h.2.2.2.2.2.1⟩

theorem cleanBatch_fixed {l : List Msg}
    (h : ∀ m ∈ l, m.content ≠ [] ∧ hasOcc marker m.content = false ∧
      trim m.content = m.content) :
    cleanBatch l = l := by
  have hmap : (l.map fun m => { m with content := trim (removeFirst marker m.content) }) = l := by
    apply map_mem_id
    intro m hm
    obtain ⟨hc, ho, ht⟩ := h m hm
    obtain ⟨i, r, c, t2, b⟩ := m
    simp only at ho ht ⊢
    rw [removeFirst_no_occ ho, ht]
  unfold cleanBatch
  rw [hmap]
  apply List.filter_eq_self.mpr
  intro m hm
  rw [Bool.not_eq_true', List.isEmpty_eq_false]
  exact (h m hm).1

theorem tidy_finalUserMsg {uid input : Str} {tsT : Int}
    (h1 : trim input ≠ []) (h2 : hasOcc marker (trim input) = false)
    (h6 : strStartsWith uid tempMark = false) (h8 : uid ≠ []) :
    tidy (finalUserMsg uid input tsT) :=
  ⟨rfl, h6, h8, h1, h2, trim_idem input,
    (by decide : ("user".toList : Str) ≠ [])⟩

theorem tidy_errMsg {eid : Str} {tsE : Int}
    (h7 : strStartsWith eid tempMark = false) (h9 : eid ≠ []) :
    tidy (errMsg eid tsE) :=
  ⟨rfl, h7, h9,
    (by decide : errText ≠ []),
    (by decide : hasOcc marker errText = false),
    (by decide : trim errText = errText),
    (by decide : ("assistant".toList : Str) ≠ [])⟩

/-- Computation rule for `handleNewMessageAux` in the existing-chat branch
when no incoming message is discarded by the id filter. -/
theorem handleNewMessageAux_merge (cid ncid gid : Str) (ts : Int)
    {st : ChatState} {newMsgs : List Msg} {cur : Session}
    (hcc : st.currentChat = some cur) (hnew : st.isNewChat = false)
    {b : List Msg} (hcb : cleanBatch newMsgs = b) (hb : b ≠ [])
    (hniq : b.filter (fun m => decide (m.id ∉ st.messages.map (·.id))) = b) :
    handleNewMessageAux st newMsgs cid ncid ts gid =
      some { st with
        currentChat := some
          { cur with messages := st.messages ++ b, updated_at := some ts }
        messages := st.messages ++ b
        chatHistory := st.chatHistory.map fun c =>
          if c._id = cur._id then
            { cur with messages := st.messages ++ b, updated_at := some ts }
          else c } := by
  cases newMsgs with
  | nil =>
    exfalso
    apply hb
    rw [← hcb]
    rfl
  | cons a t =>
    unfold handleNewMessageAux
    rw [hcb]
    cases b with
    | nil => exact absurd rfl hb
    | cons bf br =>
      rw [hcc, hnew]
      dsimp only
      rw [hniq]

/-- Computation rule for `handleNewMessageAux` in the new-chat branch. -/
theorem handleNewMessageAux_create (cid ncid gid : Str) (ts : Int)
    {st : ChatState} {newMsgs : List Msg}
    (h : st.currentChat = none ∨ st.isNewChat = true)
    {bf : Msg} {br : List Msg} (hcb : cleanBatch newMsgs = bf :: br) :
    handleNewMessageAux st newMsgs cid ncid ts gid = some
      { chatHistory :=
          { _id := if cid ≠ [] then cid else if ncid ≠ [] then ncid else gid
            title := mkTitle bf.content
            messages := bf :: br
            created_at := ts
            updated_at := some ts } :: st.chatHistory
        currentChat := some
          { _id := if cid ≠ [] then cid else if ncid ≠ [] then ncid else gid
            title := mkTitle bf.content
            messages := bf :: br
            created_at := ts
            updated_at := some ts }
        messages := bf :: br
        isNewChat := false } := by
  cases newMsgs with
  | nil =>
    exfalso
    have : cleanBatch ([] : List Msg) = [] := rfl
    rw [hcb] at this
    cases this
  | cons a t =>
    unfold handleNewMessageAux
    rw [hcb]
    rcases h with hcc | hnew
    · rw [hcc]
    · rcases hcc2 : st.currentChat with _ | cur
      · rfl
      · rw [hnew]

/-- C5: when a send fails with a remote error, the visible message list
gains the finalized (non-temporary) user message carrying the trimmed
original content plus exactly the one fixed-text error assistant message,
and no temporary message remains in the view.  The hypotheses say the input
is not blank and carries no in-flight marker, the two generated ids are
fresh, non-empty and not temp-marked, the stored messages are in steady
state, and a composing-new state has no stored messages. -/
theorem c5_send_failure_spec (st : UIState) (input : Str) (tempId uid eid : Str)
    (tsT tsE tsM : Int) (gcid fcid now2 : Str)
    (h1 : trim input ≠ [])
    (h2 : hasOcc marker (trim input) = false)
    (h3 : uid ∉ st.chat.messages.map (·.id))
    (h4 : eid ∉ st.chat.messages.map (·.id))
    (h6 : strStartsWith uid tempMark = false)
    (h7 : strStartsWith eid tempMark = false)
    (h8 : uid ≠ []) (h9 : eid ≠ [])
    (h10 : ∀ m ∈ st.chat.messages, tidy m)
    (h11 : (st.chat.currentChat = none ∨ st.chat.isNewChat = true) →
      st.chat.messages = []) :
    sendFailSpec st
      (sendMessageFail st input tempId uid eid tsT tsE tsM gcid fcid now2)
      input uid eid tsT tsE := by
  have hU : tidy (finalUserMsg uid input tsT) := tidy_finalUserMsg h1 h2 h6 h8
  have hE : tidy (errMsg eid tsE) := tidy_errMsg h7 h9
  have htwo : ∀ m ∈ [finalUserMsg uid input tsT, errMsg eid tsE], tidy m := by
    intro m hm
    rcases List.mem_cons.mp hm with rfl | hm2
    · exact hU
    · rcases List.mem_cons.mp hm2 with rfl | hm3
      · exact hE
      · cases hm3
  have hall : ∀ m ∈ st.chat.messages ++ [finalUserMsg uid input tsT, errMsg eid tsE],
      tidy m := by
    intro m hm
    rcases List.mem_append.mp hm with hm1 | hm2
    · exact h10 m hm1
    · exact htwo m hm2
  have hcb : cleanBatch [finalUserMsg uid input tsT, errMsg eid tsE] =
      [finalUserMsg uid input tsT, errMsg eid tsE] :=
    cleanBatch_fixed fun m hm => tidy_content_facts (htwo m hm)
  have hmsgs : ∀ cidE : Str,
      (handleNewMessageE now2 st.chat
          [finalUserMsg uid input tsT, errMsg eid tsE] [] cidE tsM gcid).messages =
        st.chat.messages ++ [finalUserMsg uid input tsT, errMsg eid tsE] := by
    intro cidE
    rcases hcc : st.chat.currentChat with _ | cur
    · have hmsg0 : st.chat.messages = [] := h11 (Or.inl hcc)
      have haux := handleNewMessageAux_create [] cidE gcid tsM (Or.inl hcc) hcb
      unfold handleNewMessageE
      rw [haux]
      show cleanMessages now2 [finalUserMsg uid input tsT, errMsg eid tsE] = _
      rw [tidy_clean_fixed htwo, hmsg0]
      rfl
    · by_cases hnew : st.chat.isNewChat = true
      · have hmsg0 : st.chat.messages = [] := h11 (Or.inr hnew)
        have haux := handleNewMessageAux_create [] cidE gcid tsM (Or.inr hnew) hcb
        unfold handleNewMessageE
        rw [haux]
        show cleanMessages now2 [finalUserMsg uid input tsT, errMsg eid tsE] = _
        rw [tidy_clean_fixed htwo, hmsg0]
        rfl
      · have hnf : st.chat.isNewChat = false := by
          cases hb : st.chat.isNewChat
          · rfl
          · exact absurd hb hnew
        have d1 : (decide ((finalUserMsg uid input tsT).id ∉
            st.chat.messages.map (·.id))) = true := decide_eq_true h3
        have d2 : (decide ((errMsg eid tsE).id ∉
            st.chat.messages.map (·.id))) = true := decide_eq_true h4
        have hniq : ([finalUserMsg uid input tsT, errMsg eid tsE]).filter
            (fun m => decide (m.id ∉ st.chat.messages.map (·.id))) =
            [finalUserMsg uid input tsT, errMsg eid tsE] := by
          rw [List.filter_cons, List.filter_cons, List.filter_nil, d1, d2]
          simp
        have haux := handleNewMessageAux_merge [] cidE gcid tsM
          hcc hnf hcb (by simp) hniq
        unfold handleNewMessageE
        rw [haux]
        show cleanMessages now2
            (st.chat.messages ++ [finalUserMsg uid input tsT, errMsg eid tsE]) = _
        rw [cleanMessages_append, tidy_clean_fixed h10, tidy_clean_fixed htwo]
  suffices hS : ∀ cidE : Str,
      sendFailSpec st
        ⟨handleNewMessageE now2 st.chat
          [finalUserMsg uid input tsT, errMsg eid tsE] [] cidE tsM gcid, none⟩
        input uid eid tsT tsE by
    rcases hcc : st.chat.currentChat with _ | cur
    · have hstep : sendMessageFail st input tempId uid eid tsT tsE tsM gcid fcid now2 =
          ⟨handleNewMessageE now2 st.chat
            [finalUserMsg uid input tsT, errMsg eid tsE] [] fcid tsM gcid, none⟩ := by
        unfold sendMessageFail
        rw [if_neg h1, hcc]
        rfl
      rw [hstep]
      exact hS fcid
    · by_cases hid : cur._id = []
      · have hstep : sendMessageFail st input tempId uid eid tsT tsE tsM gcid fcid now2 =
            ⟨handleNewMessageE now2 st.chat
              [finalUserMsg uid input tsT, errMsg eid tsE] [] fcid tsM gcid, none⟩ := by
          unfold sendMessageFail
          rw [if_neg h1, hcc]
          dsimp only
          rw [if_pos hid]
          rfl
        rw [hstep]
        exact hS fcid
      · have hstep : sendMessageFail st input tempId uid eid tsT tsE tsM gcid fcid now2 =
            ⟨handleNewMessageE now2 st.chat
              [finalUserMsg uid input tsT, errMsg eid tsE] [] cur._id tsM gcid, none⟩ := by
          unfold sendMessageFail
          rw [if_neg h1, hcc]
          dsimp only
          rw [if_neg hid]
          rfl
        rw [hstep]
        exact hS cur._id
  intro cidE
  unfold sendFailSpec
  refine ⟨rfl, ?_, ?_⟩
  · show displayMessages
        (handleNewMessageE now2 st.chat
          [finalUserMsg uid input tsT, errMsg eid tsE] [] cidE tsM gcid).messages
        none = st.chat.messages ++ [finalUserMsg uid input tsT, errMsg eid tsE]
    rw [hmsgs cidE]
    show (st.chat.messages ++ [finalUserMsg uid input tsT, errMsg eid tsE]).filter
        dispKeep = st.chat.messages ++ [finalUserMsg uid input tsT, errMsg eid tsE]
    exact tidy_filter_disp hall
  · show (displayMessages
        (handleNewMessageE now2 st.chat
          [finalUserMsg uid input tsT, errMsg eid tsE] [] cidE tsM gcid).messages
        none).countP isTempish = 0
    rw [hmsgs cidE]
    show ((st.chat.messages ++ [finalUserMsg uid input tsT, errMsg eid tsE]).filter
        dispKeep).countP isTempish = 0
    apply List.countP_eq_zero.mpr
    intro m hm
    have hmem := (List.mem_filter.mp hm).1
    rw [tidy_not_tempish (hall m hmem)]
    simp

/-- C5 witness: the failed-send guarantee at a concrete empty state and
input. -/
theorem c5_witness :
    sendFailSpec ⟨stEmpty, none⟩
      (sendMessageFail ⟨stEmpty, none⟩ "Hi ".toList "temp-1-user".toList
        "1-user".toList "2-error".toList 10 11 12 "chat-9".toList "9".toList
        "13".toList)
      "Hi ".toList "1-user".toList "2-error".toList 10 11 :=
  c5_send_failure_spec ⟨stEmpty, none⟩ "Hi ".toList "temp-1-user".toList
    "1-user".toList "2-error".toList 10 11 12 "chat-9".toList "9".toList
    "13".toList (by decide) (by decide) (by decide) (by decide) (by decide)
    (by decide) (by decide) (by decide) (by decide) (by decide)

end HrAssistant
